import Mathlib

/-!
Shallow embedding of packages/application/src/client.ts: the JupyterClient
class, its constructor (collaborator defaulting and the restored promise
derivation), the contextMenuFirst query, the evtContextMenu hook and the
private parent-chain walk.
-/

/-- A JavaScript value slot for an optional object-typed property: the
property may be absent (undefined), explicitly null, or hold a value.
For object and promise references, only the value case is truthy. -/
inductive TsOpt (α : Type) where
  | undef : TsOpt α
  | null : TsOpt α
  | value : α → TsOpt α
deriving DecidableEq

/-- Evaluation of the JavaScript expression x || d for an object-typed x:
the value when x is a (truthy) object reference, the default otherwise. -/
def TsOpt.orDefault : TsOpt α → α → α
  | .value a, _ => a
  | .undef, d => d
  | .null, d => d

/-- True exactly when the slot holds an actual (non-null, defined) value. -/
def TsOpt.isValue : TsOpt α → Bool
  | .value _ => true
  | _ => false

/-- A settled promise: resolved with a value of type A or rejected with a
reason of type E. -/
def Promise (E A : Type) := Except E A

/-- Embedding of p.then(f) where the callback returns a promise that the
result adopts: a rejection passes through, a resolution runs the callback. -/
def promiseThen (p : Except E A) (f : A → Except E B) : Except E B :=
  match p with
  | .ok a => f a
  | .error e => .error e

/-- Embedding of p.catch(f): a resolution passes through, a rejection is
replaced by the promise the handler returns. -/
def promiseCatch (p : Except E A) (f : E → Except E A) : Except E A :=
  match p with
  | .ok a => .ok a
  | .error e => f e

/-- A CommandLinker instance: an allocation tag modelling reference
identity, plus the command registry it was constructed against. -/
structure CommandLinker where
  tag : Nat
  commands : Nat
deriving DecidableEq

/-- A DocumentRegistry instance, identified by an allocation tag. -/
structure DocumentRegistry where
  tag : Nat
deriving DecidableEq

/-- A ServiceManager instance, identified by an allocation tag. -/
structure ServiceManager where
  tag : Nat
deriving DecidableEq

/-- A contextmenu MouseEvent: the DOM node (by id) that was its target. -/
structure MouseEvent where
  target : Nat
deriving DecidableEq

/-- The DOM parent relation: for each node id, its parentNode, or none
when the node has no parent (or no parentNode property). -/
structure Dom where
  parent : Nat → Option Nat

/-- The JupyterClient.IOptions fields original to client.ts: the four
optional collaborator overrides. Each slot is a JavaScript value that may
be absent, null, or an instance. -/
structure IOptions (E U : Type) where
  docRegistry : TsOpt DocumentRegistry
  commandLinker : TsOpt CommandLinker
  serviceManager : TsOpt ServiceManager
  restored : TsOpt (Except E U)

/-- Allocation tags for the default collaborators the constructor would
build: fresh object identities for new CommandLinker, new
DocumentRegistry and new ServiceManager. -/
structure FreshDefaults where
  linkerTag : Nat
  registryTag : Nat
  managerTag : Nat

/-- The JupyterClient instance state: the four collaborator fields (as
JavaScript slots, so that non-nullness is a provable property), the
private most-recent contextmenu event slot, and a log of the events
forwarded to the base class handler. -/
structure JupyterClient (E U : Type) where
  commandLinker : TsOpt CommandLinker
  docRegistry : TsOpt DocumentRegistry
  restored : TsOpt (Except E U)
  serviceManager : TsOpt ServiceManager
  contextMenuEvent : Option MouseEvent
  baseContextMenuEvents : List MouseEvent

/-- The default restored promise built in the constructor: it resolves on
the next animation frame with the undefined value (resolve() with no
argument), never rejecting. -/
def defaultRestored (undefVal : U) : Except E U := .ok undefVal

/-- The JupyterClient constructor. Arguments beyond the options record
model what the base class and the runtime supply: the command registry
this.commands, the base started lifecycle promise, the undefined payload
of the default restored promise, and fresh allocation tags for any
default collaborators. Each field is the supplied override when truthy,
the constructed default otherwise; the private event slot starts
undefined. -/
def mkJupyterClient (opts : IOptions E U) (commands : Nat)
    (started : Except E Unit) (undefVal : U) (fresh : FreshDefaults) :
    JupyterClient E U :=
  { commandLinker :=
      .value (opts.commandLinker.orDefault ⟨fresh.linkerTag, commands⟩)
    docRegistry := .value (opts.docRegistry.orDefault ⟨fresh.registryTag⟩)
    restored := .value (opts.restored.orDefault
      (promiseCatch (promiseThen started fun _ => defaultRestored undefVal)
        fun _ => defaultRestored undefVal))
    serviceManager := .value (opts.serviceManager.orDefault ⟨fresh.managerTag⟩)
    contextMenuEvent := none
    baseContextMenuEvents := [] }

/-- The while loop of _getContextMenuNodes, from a starting node: collect
the node, then while the node has a parent different from itself, step to
the parent. The fuel argument bounds the number of loop iterations the
embedding unfolds; none means the loop did not finish within fuel steps
(the source loop can run forever on a parent cycle of length above one). -/
def parentWalk (parent : Nat → Option Nat) : Nat → Nat → Option (List Nat)
  | 0, _ => none
  | fuel + 1, n =>
    match parent n with
    | none => some [n]
    | some p => if p = n then some [n] else (parentWalk parent fuel p).map (n :: .)

/-- JupyterClient._getContextMenuNodes: an empty list when no contextmenu
event was ever recorded, otherwise the parent chain walked up from the
recorded event target. -/
def _getContextMenuNodes (dom : Dom) (fuel : Nat) (c : JupyterClient E U) :
    Option (List Nat) :=
  match c.contextMenuEvent with
  | none => some []
  | some ev => parentWalk dom.parent fuel ev.target

/-- JupyterClient.contextMenuFirst: the first node of the recorded chain
satisfying the test, or none (undefined) when no node matches or no event
was recorded. The outer Option is the fuel bound of the embedding. -/
def contextMenuFirst (dom : Dom) (fuel : Nat) (test : Nat → Bool)
    (c : JupyterClient E U) : Option (Option Nat) :=
  (_getContextMenuNodes dom fuel c).map fun nodes => nodes.find? test

/-- State-passing form of contextMenuFirst: the method body only reads
the private slot, so the translation returns the instance it was given. -/
def contextMenuFirstRun (dom : Dom) (fuel : Nat) (test : Nat → Bool)
    (c : JupyterClient E U) : Option (Option Nat) × JupyterClient E U :=
  match _getContextMenuNodes dom fuel c with
  | none => (none, c)
  | some nodes => (some (nodes.find? test), c)

/-- JupyterClient.evtContextMenu: record the event in the private slot,
overwriting any prior one, then forward it to the base class handler
(modelled as appending to the base handler log). -/
def evtContextMenu (ev : MouseEvent) (c : JupyterClient E U) :
    JupyterClient E U :=
  { c with contextMenuEvent := some ev
           baseContextMenuEvents := c.baseContextMenuEvents ++ [ev] }

/-- The walk from node n reaches, within k parent steps, a node whose
parent is absent or is the node itself. -/
def stopsWithin (parent : Nat → Option Nat) : Nat → Nat → Bool
  | n, 0 =>
    match parent n with
    | none => true
    | some p => p == n
  | n, k + 1 =>
    match parent n with
    | none => true
    | some p => p == n || stopsWithin parent p k

/-- Unfolding equation: a node with no parent walks to the singleton chain. -/
theorem parentWalk_none (parent : Nat → Option Nat) (fuel n : Nat)
    (h : parent n = none) : parentWalk parent (fuel + 1) n = some [n] := by
  have e : parentWalk parent (fuel + 1) n
      = (match parent n with
         | none => some [n]
         | some q => if q = n then some [n]
            else (parentWalk parent fuel q).map (n :: .)) := rfl
  rw [e, h]

/-- Unfolding equation: a node that is its own parent walks to the
singleton chain. -/
theorem parentWalk_self (parent : Nat → Option Nat) (fuel n : Nat)
    (h : parent n = some n) : parentWalk parent (fuel + 1) n = some [n] := by
  have e : parentWalk parent (fuel + 1) n
      = (match parent n with
         | none => some [n]
         | some q => if q = n then some [n]
            else (parentWalk parent fuel q).map (n :: .)) := rfl
  rw [e, h]
  exact if_pos rfl

/-- Unfolding equation: a node with a distinct parent prepends itself to
the walk from the parent. -/
theorem parentWalk_step (parent : Nat → Option Nat) (fuel n p : Nat)
    (h : parent n = some p) (hpn : p ≠ n) :
    parentWalk parent (fuel + 1) n = (parentWalk parent fuel p).map (n :: .) := by
  have e : parentWalk parent (fuel + 1) n
      = (match parent n with
         | none => some [n]
         | some q => if q = n then some [n]
            else (parentWalk parent fuel q).map (n :: .)) := rfl
  rw [e, h]
  exact if_neg hpn

/-- Unfolding equation for stopsWithin at a node with a parent, zero
steps remaining. -/
theorem stopsWithin_some_zero (parent : Nat → Option Nat) (n p : Nat)
    (h : parent n = some p) : stopsWithin parent n 0 = (p == n) := by
  have e : stopsWithin parent n 0
      = (match parent n with
         | none => true
         | some q => q == n) := rfl
  rw [e, h]

/-- Unfolding equation for stopsWithin at a node with a parent, a
positive number of steps remaining. -/
theorem stopsWithin_some_succ (parent : Nat → Option Nat) (n p k : Nat)
    (h : parent n = some p) :
    stopsWithin parent n (k + 1) = (p == n || stopsWithin parent p k) := by
  have e : stopsWithin parent n (k + 1)
      = (match parent n with
         | none => true
         | some q => q == n || stopsWithin parent q k) := rfl
  rw [e, h]

/-- A found result of List.find? is the first match: it occurs at an index
before which every element fails the predicate. -/
theorem find?_first_index (p : Nat → Bool) :
    ∀ (ns : List Nat) (r : Nat), ns.find? p = some r →
      ∃ i : Nat, ns[i]? = some r ∧ p r = true ∧
        ∀ (j x : Nat), j < i → ns[j]? = some x → p x = false := by
  intro ns
  induction ns with
  | nil => intro r h; simp [List.find?] at h
  | cons a t ih =>
    intro r h
    by_cases hp : p a = true
    · rw [List.find?_cons_of_pos _ hp] at h
      obtain rfl : a = r := by injection h
      refine ⟨0, ?_, hp, ?_⟩
      · simp
      · intro j x hj _
        exact absurd hj (Nat.not_lt_zero j)
    · rw [List.find?_cons_of_neg _ hp] at h
      obtain ⟨i, h1, h2, h3⟩ := ih r h
      refine ⟨i + 1, ?_, h2, ?_⟩
      · simpa using h1
      intro j x hj hx
      cases j with
      | zero =>
        have hax : a = x := by simpa using hx
        rw [← hax]
        simpa using hp
      | succ j =>
        exact h3 j x (Nat.lt_of_succ_lt_succ hj) (by simpa using hx)

/-- Structure of a finished parent walk: it starts at the starting node,
the parent of each element is the next element (and differs from it),
and the last element has an absent or self parent. -/
theorem parentWalk_spec (parent : Nat → Option Nat) :
    ∀ (fuel n : Nat) (ns : List Nat), parentWalk parent fuel n = some ns →
      ns.head? = some n ∧
      (∀ i x y, ns[i]? = some x → ns[i + 1]? = some y →
        parent x = some y ∧ y ≠ x) ∧
      (∀ x, ns.getLast? = some x → parent x = none ∨ parent x = some x) := by
  intro fuel
  induction fuel with
  | zero => intro n ns h; simp [parentWalk] at h
  | succ fuel ih =>
    intro n ns h
    cases hp : parent n with
    | none =>
      rw [parentWalk_none parent fuel n hp] at h
      obtain rfl : [n] = ns := by injection h
      refine ⟨rfl, ?_, ?_⟩
      · intro i x y _ h2
        simp at h2
      · intro x hx
        obtain rfl : n = x := by simpa using hx
        exact Or.inl hp
    | some p =>
      by_cases hpn : p = n
      · rw [parentWalk_self parent fuel n (hpn ▸ hp)] at h
        obtain rfl : [n] = ns := by injection h
        refine ⟨rfl, ?_, ?_⟩
        · intro i x y _ h2
          simp at h2
        · intro x hx
          obtain rfl : n = x := by simpa using hx
          exact Or.inr (hpn ▸ hp)
      · rw [parentWalk_step parent fuel n p hp hpn] at h
        cases hw : parentWalk parent fuel p with
        | none => rw [hw] at h; simp at h
        | some ms =>
          rw [hw] at h
          obtain rfl : n :: ms = ns := by simpa using h
          obtain ⟨ihh, ihpair, ihlast⟩ := ih p ms hw
          cases ms with
          | nil => simp at ihh
          | cons m t =>
            have hmp : m = p := by simpa using ihh
            refine ⟨rfl, ?_, ?_⟩
            · intro i x y h1 h2
              cases i with
              | zero =>
                have hx1 : n = x := by simpa using h1
                have hy1 : m = y := by simpa using h2
                rw [← hx1, ← hy1, hmp]
                exact ⟨hp, hpn⟩
              | succ i =>
                exact ihpair i x y (by simpa using h1) (by simpa using h2)
            · intro x hx
              rw [List.getLast?_cons_cons] at hx
              exact ihlast x hx

/-- If the chain from a node reaches a stopping node within k steps, the
walk finishes with fuel k + 1. -/
theorem stopsWithin_parentWalk (parent : Nat → Option Nat) :
    ∀ (k n : Nat), stopsWithin parent n k = true →
      ∃ ns, parentWalk parent (k + 1) n = some ns := by
  intro k
  induction k with
  | zero =>
    intro n h
    cases hp : parent n with
    | none => exact ⟨[n], parentWalk_none parent 0 n hp⟩
    | some p =>
      rw [stopsWithin_some_zero parent n p hp] at h
      have hpn : p = n := by simpa using h
      exact ⟨[n], parentWalk_self parent 0 n (hpn ▸ hp)⟩
  | succ k ih =>
    intro n h
    cases hp : parent n with
    | none => exact ⟨[n], parentWalk_none parent (k + 1) n hp⟩
    | some p =>
      rw [stopsWithin_some_succ parent n p k hp] at h
      by_cases hpn : p = n
      · exact ⟨[n], parentWalk_self parent (k + 1) n (hpn ▸ hp)⟩
      · have h2 : stopsWithin parent p k = true := by
          simpa [hpn] using h
        obtain ⟨ms, hm⟩ := ih p h2
        refine ⟨n :: ms, ?_⟩
        rw [parentWalk_step parent (k + 1) n p hp hpn, hm]
        rfl

/-- The state left unchanged by contextMenuFirst, as a reusable fact. -/
theorem contextMenuFirstRun_snd (dom : Dom) (fuel : Nat) (test : Nat → Bool)
    (c : JupyterClient E U) : (contextMenuFirstRun dom fuel test c).2 = c := by
  unfold contextMenuFirstRun
  cases _getContextMenuNodes dom fuel c <;> rfl

/-- When an event is recorded, the private node query is exactly the
parent walk from the event target. -/
theorem getContextMenuNodes_of_event (dom : Dom) (fuel : Nat)
    (c : JupyterClient E U) (ev : MouseEvent)
    (hev : c.contextMenuEvent = some ev) :
    _getContextMenuNodes dom fuel c = parentWalk dom.parent fuel ev.target := by
  unfold _getContextMenuNodes
  rw [hev]

/-- Concrete DOM with parent chain 0 (A) to 1 (B) to 2 (C), C parentless. -/
def exDom : Dom := ⟨fun n => if n = 0 then some 1 else if n = 1 then some 2 else none⟩

/-- Concrete DOM in which node 0 is its own parent. -/
def selfDom : Dom := ⟨fun _ => some 0⟩

/-- Options record supplying no override at all. -/
def exOpts : IOptions Unit Unit :=
  ⟨TsOpt.undef, TsOpt.undef, TsOpt.undef, TsOpt.undef⟩

/-- Options record supplying every override. -/
def exOpts3 : IOptions Unit Nat :=
  ⟨TsOpt.value ⟨3⟩, TsOpt.value ⟨4, 5⟩, TsOpt.value ⟨6⟩, TsOpt.value (Except.ok 7)⟩

/-- Options record in which every override slot is explicitly null. -/
def nullOpts : IOptions Unit Unit :=
  ⟨TsOpt.null, TsOpt.null, TsOpt.null, TsOpt.null⟩

/-- A freshly constructed client with no contextmenu event recorded. -/
def exClient0 : JupyterClient Unit Unit :=
  mkJupyterClient exOpts 0 (.ok ()) () ⟨0, 0, 0⟩

/-- The fresh client after a contextmenu event on node 0. -/
def exClient : JupyterClient Unit Unit := evtContextMenu ⟨0⟩ exClient0

/-- C1: for every recorded contextmenu event, contextMenuFirst returns
the first element of the ancestor chain (built from the event target
upward through successive parents) satisfying the predicate, and the
undefined sentinel when no element does. -/
theorem contextMenuFirst_finds_first (dom : Dom) (fuel : Nat)
    (test : Nat → Bool) (c : JupyterClient E U) (ev : MouseEvent)
    (ns : List Nat) (hev : c.contextMenuEvent = some ev)
    (hw : parentWalk dom.parent fuel ev.target = some ns) :
    contextMenuFirst dom fuel test c = some (ns.find? test) ∧
    (∀ r : Nat, ns.find? test = some r →
      ∃ i : Nat, ns[i]? = some r ∧ test r = true ∧
        ∀ (j x : Nat), j < i → ns[j]? = some x → test x = false) ∧
    (ns.find? test = none → ∀ x ∈ ns, test x = false) := by
  refine ⟨?_, ?_, ?_⟩
  · unfold contextMenuFirst
    rw [getContextMenuNodes_of_event dom fuel c ev hev, hw]
    rfl
  · intro r hr
    exact find?_first_index test ns r hr
  · intro hnone x hx
    have := List.find?_eq_none.mp hnone x hx
    simpa using this

/-- C1 witness: with target 0 and chain 0, 1, 2, the query for node 1
returns node 1, and the constantly false query returns undefined. -/
theorem contextMenuFirst_finds_first_witness :
    contextMenuFirst exDom 3 (fun n => n == 1) exClient = some (some 1) ∧
    contextMenuFirst exDom 3 (fun _ => false) exClient = some none := by
  have h1 := contextMenuFirst_finds_first exDom 3 (fun n => n == 1)
    exClient ⟨0⟩ [0, 1, 2] rfl rfl
  have h2 := contextMenuFirst_finds_first exDom 3 (fun _ => false)
    exClient ⟨0⟩ [0, 1, 2] rfl rfl
  constructor
  · rw [h1.1]
    rfl
  · rw [h2.1]
    rfl

/-- C2: when no restored override is supplied and the base started
promise rejects, the restored field is still a resolved promise carrying
the default animation-frame value; the failure is swallowed. -/
theorem restored_absorbs_started_rejection (opts : IOptions E U)
    (commands : Nat) (undefVal : U) (fresh : FreshDefaults) (e : E)
    (hro : opts.restored = TsOpt.undef) :
    (mkJupyterClient opts commands (Except.error e) undefVal fresh).restored
      = TsOpt.value (Except.ok undefVal) := by
  simp [mkJupyterClient, hro, TsOpt.orDefault, promiseThen, promiseCatch,
    defaultRestored]

/-- C2 witness: a concrete construction with a rejected started promise
still gets a resolved restored promise. -/
theorem restored_absorbs_started_rejection_witness :
    (mkJupyterClient exOpts 0 (Except.error ()) () ⟨0, 0, 0⟩).restored
      = TsOpt.value (Except.ok ()) :=
  restored_absorbs_started_rejection exOpts 0 () ⟨0, 0, 0⟩ () rfl

/-- C3: when all four overrides are supplied, the four fields of the
constructed instance are exactly the supplied instances. -/
theorem overrides_kept (opts : IOptions E U) (commands : Nat)
    (started : Except E Unit) (undefVal : U) (fresh : FreshDefaults)
    (cl : CommandLinker) (dr : DocumentRegistry) (sm : ServiceManager)
    (rp : Except E U)
    (h1 : opts.commandLinker = TsOpt.value cl)
    (h2 : opts.docRegistry = TsOpt.value dr)
    (h3 : opts.serviceManager = TsOpt.value sm)
    (h4 : opts.restored = TsOpt.value rp) :
    (mkJupyterClient opts commands started undefVal fresh).commandLinker
        = TsOpt.value cl ∧
    (mkJupyterClient opts commands started undefVal fresh).docRegistry
        = TsOpt.value dr ∧
    (mkJupyterClient opts commands started undefVal fresh).serviceManager
        = TsOpt.value sm ∧
    (mkJupyterClient opts commands started undefVal fresh).restored
        = TsOpt.value rp := by
  simp [mkJupyterClient, h1, h2, h3, h4, TsOpt.orDefault]

/-- C3 witness: a concrete construction with every override supplied
keeps all four supplied instances. -/
theorem overrides_kept_witness :
    (mkJupyterClient exOpts3 0 (Except.ok ()) 0 ⟨1, 1, 1⟩).commandLinker
        = TsOpt.value ⟨4, 5⟩ ∧
    (mkJupyterClient exOpts3 0 (Except.ok ()) 0 ⟨1, 1, 1⟩).docRegistry
        = TsOpt.value ⟨3⟩ ∧
    (mkJupyterClient exOpts3 0 (Except.ok ()) 0 ⟨1, 1, 1⟩).serviceManager
        = TsOpt.value ⟨6⟩ ∧
    (mkJupyterClient exOpts3 0 (Except.ok ()) 0 ⟨1, 1, 1⟩).restored
        = TsOpt.value (Except.ok 7) :=
  overrides_kept exOpts3 0 (Except.ok ()) 0 ⟨1, 1, 1⟩ ⟨4, 5⟩ ⟨3⟩ ⟨6⟩
    (Except.ok 7) rfl rfl rfl rfl

/-- C4: after any construction the four collaborator fields are
non-null; absent overrides fall back to the constructed defaults (for
restored, to the started-then-animation-frame derivation); and the two
methods never reassign any of the four fields. -/
theorem fields_nonnull_once (opts : IOptions E U) (commands : Nat)
    (started : Except E Unit) (undefVal : U) (fresh : FreshDefaults) :
    (mkJupyterClient opts commands started undefVal fresh).commandLinker.isValue = true ∧
    (mkJupyterClient opts commands started undefVal fresh).docRegistry.isValue = true ∧
    (mkJupyterClient opts commands started undefVal fresh).restored.isValue = true ∧
    (mkJupyterClient opts commands started undefVal fresh).serviceManager.isValue = true ∧
    (opts.commandLinker = TsOpt.undef →
      (mkJupyterClient opts commands started undefVal fresh).commandLinker
        = TsOpt.value ⟨fresh.linkerTag, commands⟩) ∧
    (opts.docRegistry = TsOpt.undef →
      (mkJupyterClient opts commands started undefVal fresh).docRegistry
        = TsOpt.value ⟨fresh.registryTag⟩) ∧
    (opts.serviceManager = TsOpt.undef →
      (mkJupyterClient opts commands started undefVal fresh).serviceManager
        = TsOpt.value ⟨fresh.managerTag⟩) ∧
    (opts.restored = TsOpt.undef →
      (mkJupyterClient opts commands started undefVal fresh).restored
        = TsOpt.value (promiseCatch
            (promiseThen started fun _ => defaultRestored undefVal)
            fun _ => defaultRestored undefVal)) ∧
    (∀ (ev : MouseEvent) (c : JupyterClient E U),
      (evtContextMenu ev c).commandLinker = c.commandLinker ∧
      (evtContextMenu ev c).docRegistry = c.docRegistry ∧
      (evtContextMenu ev c).restored = c.restored ∧
      (evtContextMenu ev c).serviceManager = c.serviceManager) ∧
    (∀ (dom : Dom) (fuel : Nat) (test : Nat → Bool) (c : JupyterClient E U),
      (contextMenuFirstRun dom fuel test c).2 = c) := by
  refine ⟨rfl, rfl, rfl, rfl, ?_, ?_, ?_, ?_, ?_, ?_⟩
  · intro h
    simp [mkJupyterClient, h, TsOpt.orDefault]
  · intro h
    simp [mkJupyterClient, h, TsOpt.orDefault]
  · intro h
    simp [mkJupyterClient, h, TsOpt.orDefault]
  · intro h
    simp [mkJupyterClient, h, TsOpt.orDefault]
  · intro ev c
    exact ⟨rfl, rfl, rfl, rfl⟩
  · intro dom fuel test c
    exact contextMenuFirstRun_snd dom fuel test c

/-- C4 witness: a concrete construction with no overrides gets the
freshly constructed defaults. -/
theorem fields_nonnull_once_witness :
    (mkJupyterClient exOpts 0 (Except.ok ()) () ⟨2, 3, 4⟩).commandLinker
      = TsOpt.value ⟨2, 0⟩ ∧
    (mkJupyterClient exOpts 0 (Except.ok ()) () ⟨2, 3, 4⟩).docRegistry
      = TsOpt.value ⟨3⟩ ∧
    (mkJupyterClient exOpts 0 (Except.ok ()) () ⟨2, 3, 4⟩).serviceManager
      = TsOpt.value ⟨4⟩ := by
  have h := fields_nonnull_once exOpts 0 (Except.ok ()) () ⟨2, 3, 4⟩
  exact ⟨h.2.2.2.2.1 rfl, h.2.2.2.2.2.1 rfl, h.2.2.2.2.2.2.1 rfl⟩

/-- C5: the chain built by the walk starts at the recorded event target,
each subsequent element is the parent of the previous one (and differs
from it), and the last element has an absent or self parent. -/
theorem contextMenuNodes_chain (dom : Dom) (fuel : Nat)
    (c : JupyterClient E U) (ev : MouseEvent) (ns : List Nat)
    (hev : c.contextMenuEvent = some ev)
    (hw : _getContextMenuNodes dom fuel c = some ns) :
    ns.head? = some ev.target ∧
    (∀ (i x y : Nat), ns[i]? = some x → ns[i + 1]? = some y →
      dom.parent x = some y ∧ y ≠ x) ∧
    (∀ x : Nat, ns.getLast? = some x →
      dom.parent x = none ∨ dom.parent x = some x) := by
  rw [getContextMenuNodes_of_event dom fuel c ev hev] at hw
  exact parentWalk_spec dom.parent fuel ev.target ns hw

/-- C5 witness: the concrete chain from node 0 starts at 0 and ends at
the parentless node 2. -/
theorem contextMenuNodes_chain_witness :
    ([0, 1, 2] : List Nat).head? = some 0 ∧
    (exDom.parent 2 = none ∨ exDom.parent 2 = some 2) := by
  have h := contextMenuNodes_chain exDom 3 exClient ⟨0⟩ [0, 1, 2] rfl rfl
  exact ⟨h.1, h.2.2 2 rfl⟩

/-- C6: when no contextmenu event has ever been recorded,
contextMenuFirst returns the undefined sentinel for every predicate. -/
theorem contextMenuFirst_no_event (dom : Dom) (fuel : Nat)
    (test : Nat → Bool) (c : JupyterClient E U)
    (h : c.contextMenuEvent = none) :
    contextMenuFirst dom fuel test c = some none := by
  unfold contextMenuFirst _getContextMenuNodes
  rw [h]
  rfl

/-- C6 witness: a freshly constructed client answers the sentinel. -/
theorem contextMenuFirst_no_event_witness :
    contextMenuFirst exDom 5 (fun _ => true) exClient0 = some none :=
  contextMenuFirst_no_event exDom 5 (fun _ => true) exClient0 rfl

/-- C7: evtContextMenu overwrites the recorded event and forwards it to
the base handler; after a second event, contextMenuFirst searches only
the chain of the second target. -/
theorem evtContextMenu_replaces (c : JupyterClient E U)
    (e1 e2 : MouseEvent) :
    (evtContextMenu e2 (evtContextMenu e1 c)).contextMenuEvent = some e2 ∧
    (evtContextMenu e2 (evtContextMenu e1 c)).baseContextMenuEvents
      = c.baseContextMenuEvents ++ [e1, e2] ∧
    (∀ (dom : Dom) (fuel : Nat) (test : Nat → Bool),
      contextMenuFirst dom fuel test (evtContextMenu e2 (evtContextMenu e1 c))
        = (parentWalk dom.parent fuel e2.target).map fun ns => ns.find? test) := by
  refine ⟨rfl, ?_, ?_⟩
  · simp [evtContextMenu]
  · intro dom fuel test
    rfl

/-- C8: the walk terminates whenever the chain from the recorded target
reaches, within finitely many steps, a node whose parent is absent or is
the node itself; in particular a self-parent node stops it at once. -/
theorem walk_terminates (dom : Dom) (c : JupyterClient E U)
    (ev : MouseEvent) (k : Nat) (hev : c.contextMenuEvent = some ev)
    (hstop : stopsWithin dom.parent ev.target k = true) :
    ∃ ns, _getContextMenuNodes dom (k + 1) c = some ns := by
  obtain ⟨ns, hns⟩ := stopsWithin_parentWalk dom.parent k ev.target hstop
  refine ⟨ns, ?_⟩
  rw [getContextMenuNodes_of_event dom (k + 1) c ev hev]
  exact hns

/-- C8 witness: with node 0 its own parent, the walk finishes. -/
theorem walk_terminates_witness :
    ∃ ns, _getContextMenuNodes selfDom 1 exClient = some ns :=
  walk_terminates selfDom exClient ⟨0⟩ 0 rfl rfl

/-- C9: contextMenuFirst is a pure read: the state-passing form returns
the instance unchanged (recorded event slot and all four collaborator
fields), and its result is the read-only query. -/
theorem contextMenuFirst_pure (dom : Dom) (fuel : Nat) (test : Nat → Bool)
    (c : JupyterClient E U) :
    (contextMenuFirstRun dom fuel test c).2 = c ∧
    (contextMenuFirstRun dom fuel test c).2.contextMenuEvent = c.contextMenuEvent ∧
    (contextMenuFirstRun dom fuel test c).2.commandLinker = c.commandLinker ∧
    (contextMenuFirstRun dom fuel test c).2.docRegistry = c.docRegistry ∧
    (contextMenuFirstRun dom fuel test c).2.restored = c.restored ∧
    (contextMenuFirstRun dom fuel test c).2.serviceManager = c.serviceManager ∧
    (contextMenuFirstRun dom fuel test c).1 = contextMenuFirst dom fuel test c := by
  have hsnd := contextMenuFirstRun_snd dom fuel test c
  refine ⟨hsnd, by rw [hsnd], by rw [hsnd], by rw [hsnd], by rw [hsnd],
    by rw [hsnd], ?_⟩
  unfold contextMenuFirstRun contextMenuFirst
  cases _getContextMenuNodes dom fuel c <;> rfl

/-- C10: a supplied but null or undefined override is replaced by the
same default as an absent one, so the resulting field is never null. -/
theorem nullish_override_gets_default (opts : IOptions E U)
    (commands : Nat) (started : Except E Unit) (undefVal : U)
    (fresh : FreshDefaults) :
    ((opts.commandLinker = TsOpt.null ∨ opts.commandLinker = TsOpt.undef) →
      (mkJupyterClient opts commands started undefVal fresh).commandLinker
        = TsOpt.value ⟨fresh.linkerTag, commands⟩) ∧
    ((opts.docRegistry = TsOpt.null ∨ opts.docRegistry = TsOpt.undef) →
      (mkJupyterClient opts commands started undefVal fresh).docRegistry
        = TsOpt.value ⟨fresh.registryTag⟩) ∧
    ((opts.serviceManager = TsOpt.null ∨ opts.serviceManager = TsOpt.undef) →
      (mkJupyterClient opts commands started undefVal fresh).serviceManager
        = TsOpt.value ⟨fresh.managerTag⟩) ∧
    ((opts.restored = TsOpt.null ∨ opts.restored = TsOpt.undef) →
      (mkJupyterClient opts commands started undefVal fresh).restored
        = TsOpt.value (promiseCatch
            (promiseThen started fun _ => defaultRestored undefVal)
            fun _ => defaultRestored undefVal)) := by
  refine ⟨?_, ?_, ?_, ?_⟩ <;>
    (rintro (h | h) <;> simp [mkJupyterClient, h, TsOpt.orDefault])

/-- C10 witness: explicitly null overrides produce the defaults. -/
theorem nullish_override_gets_default_witness :
    (mkJupyterClient nullOpts 9 (Except.ok ()) () ⟨5, 6, 7⟩).commandLinker
      = TsOpt.value ⟨5, 9⟩ ∧
    (mkJupyterClient nullOpts 9 (Except.ok ()) () ⟨5, 6, 7⟩).docRegistry
      = TsOpt.value ⟨6⟩ ∧
    (mkJupyterClient nullOpts 9 (Except.ok ()) () ⟨5, 6, 7⟩).serviceManager
      = TsOpt.value ⟨7⟩ := by
  have h := nullish_override_gets_default nullOpts 9 (Except.ok ()) () ⟨5, 6, 7⟩
  exact ⟨h.1 (Or.inl rfl), h.2.1 (Or.inl rfl), h.2.2.1 (Or.inl rfl)⟩
